import Mathlib

/-!
Verification of the semantic-search embedding pipeline
(MongoDB Atlas Vector Search + Amazon Bedrock sample application).

This file gives a shallow embedding, in Lean 4, of the TypeScript source:

* src/functions/createInitialEmbeddings/index.ts
  (readDocuments, sendToQueueInBatches, the backfill HTTP handler,
   writeEmbedding, recordHandler, the SQS batch handler);
* src/functions/search/index.ts (knnSearch, the search HTTP handler);
* src/functions/commons/helpers.ts (createEmbedding).

External collaborators (MongoDB, SQS, Amazon Bedrock, the Powertools batch
utility, and the relevant JavaScript builtins) are modelled by their
documented semantics; each such definition carries a comment saying what it
models.  JSON values are modelled by an inductive AST: the JavaScript
JSON.stringify / JSON.parse pair is the identity on this AST, so queue
message bodies are carried as AST values rather than strings.
-/

namespace SemanticSearch

/-- JSON / BSON-after-JSON-serialization values, as produced and consumed by
the pipeline.  Numbers are modelled as rationals; object fields are kept in
insertion order, as JavaScript objects and BSON documents both preserve
field order. -/
inductive Json where
  | null
  | bool (b : Bool)
  | num (q : Rat)
  | str (s : String)
  | arr (elems : List Json)
  | obj (fields : List (String × Json))

mutual

/-- Structural equality test for JSON values. -/
def Json.beq : Json → Json → Bool
  | .null, .null => true
  | .bool a, .bool b => a == b
  | .num a, .num b => a == b
  | .str a, .str b => a == b
  | .arr xs, .arr ys => Json.beqItems xs ys
  | .obj xs, .obj ys => Json.beqFields xs ys
  | _, _ => false
termination_by structural a => a

/-- Elementwise equality test for JSON arrays. -/
def Json.beqItems : List Json → List Json → Bool
  | [], [] => true
  | x :: xs, y :: ys => Json.beq x y && Json.beqItems xs ys
  | _, _ => false
termination_by structural a => a

/-- Fieldwise equality test for JSON objects. -/
def Json.beqFields : List (String × Json) → List (String × Json) → Bool
  | [], [] => true
  | (k1, v1) :: xs, (k2, v2) :: ys => k1 == k2 && Json.beq v1 v2 && Json.beqFields xs ys
  | _, _ => false
termination_by structural a => a

end

mutual

theorem Json.eq_of_beq : ∀ {a b : Json}, Json.beq a b = true → a = b
  | .null, .null, _ => rfl
  | .bool _, .bool _, h => by
      simp only [Json.beq, beq_iff_eq] at h; rw [h]
  | .num _, .num _, h => by
      simp only [Json.beq, beq_iff_eq] at h; rw [h]
  | .str _, .str _, h => by
      simp only [Json.beq, beq_iff_eq] at h; rw [h]
  | .arr xs, .arr ys, h => by
      rw [Json.eq_of_beqItems (a := xs) (b := ys) h]
  | .obj xs, .obj ys, h => by
      rw [Json.eq_of_beqFields (a := xs) (b := ys) h]
termination_by structural a => a

theorem Json.eq_of_beqItems : ∀ {a b : List Json}, Json.beqItems a b = true → a = b
  | [], [], _ => rfl
  | x :: xs, y :: ys, h => by
      simp only [Json.beqItems, Bool.and_eq_true] at h
      rw [Json.eq_of_beq h.1, Json.eq_of_beqItems (a := xs) (b := ys) h.2]
termination_by structural a => a

theorem Json.eq_of_beqFields :
    ∀ {a b : List (String × Json)}, Json.beqFields a b = true → a = b
  | [], [], _ => rfl
  | (k1, v1) :: xs, (k2, v2) :: ys, h => by
      simp only [Json.beqFields, Bool.and_eq_true, beq_iff_eq] at h
      rw [h.1.1, Json.eq_of_beq h.1.2, Json.eq_of_beqFields (a := xs) (b := ys) h.2]
termination_by structural a => a

end

mutual

theorem Json.beq_self : ∀ (a : Json), Json.beq a a = true
  | .null => rfl
  | .bool _ => by simp [Json.beq]
  | .num _ => by simp [Json.beq]
  | .str _ => by simp [Json.beq]
  | .arr xs => by simpa [Json.beq] using Json.beqItems_self xs
  | .obj xs => by simpa [Json.beq] using Json.beqFields_self xs
termination_by structural a => a

theorem Json.beqItems_self : ∀ (a : List Json), Json.beqItems a a = true
  | [] => rfl
  | x :: xs => by
      simp only [Json.beqItems, Bool.and_eq_true]
      exact ⟨Json.beq_self x, Json.beqItems_self xs⟩
termination_by structural a => a

theorem Json.beqFields_self : ∀ (a : List (String × Json)), Json.beqFields a a = true
  | [] => rfl
  | (k, v) :: xs => by
      simp only [Json.beqFields, Bool.and_eq_true, beq_self_eq_true, true_and]
      exact ⟨Json.beq_self v, Json.beqFields_self xs⟩
termination_by structural a => a

end

instance : DecidableEq Json := fun a b =>
  if h : Json.beq a b = true then isTrue (Json.eq_of_beq h)
  else isFalse (fun he => h (he ▸ Json.beq_self a))

/-- A JavaScript object / MongoDB document body: ordered list of fields.
The invariant that keys are unique is maintained by the operations below
(it is what JavaScript objects guarantee). -/
abbrev Doc := List (String × Json)

/-- Property read (doc.key): the value of the first field named key, if any. -/
def getField : Doc → String → Option Json
  | [], _ => none
  | f :: rest, key => if f.1 = key then some f.2 else getField rest key

/-- Whether a field is present (the $exists test of the Mongo filters). -/
def hasField (doc : Doc) (key : String) : Bool :=
  (getField doc key).isSome

/-- Rest-destructuring minus one key (the TypeScript pattern
const ( _id, ...document ) = fullDocument): all other fields, in order. -/
def removeField : Doc → String → Doc
  | [], _ => []
  | f :: rest, key => if f.1 = key then removeField rest key else f :: removeField rest key

/-- JavaScript property assignment (doc[key] = v): updates the existing field
in place, or appends a new field at the end. -/
def setField : Doc → String → Json → Doc
  | [], key, v => [(key, v)]
  | f :: rest, key, v => if f.1 = key then (key, v) :: rest else f :: setField rest key v

/-- A JavaScript number that is either an actual integer or NaN, as produced
by parseInt.  (parseInt never produces a non-integer finite value.) -/
inductive JNum where
  | nan
  | int (n : Int)
  deriving DecidableEq

/-- Value of one character as a digit, accepting both cases of hex letters. -/
def digitValue (c : Char) : Option Nat :=
  if '0' ≤ c ∧ c ≤ '9' then some (c.toNat - '0'.toNat)
  else if 'a' ≤ c ∧ c ≤ 'f' then some (c.toNat - 'a'.toNat + 10)
  else if 'A' ≤ c ∧ c ≤ 'F' then some (c.toNat - 'A'.toNat + 10)
  else none

/-- Longest leading run of digits for the given base, accumulated left to
right; none when the run is empty (parseInt then yields NaN). -/
def takeDigits (base : Nat) : List Char → Option Nat → Option Nat
  | [], acc => acc
  | c :: cs, acc =>
      match digitValue c with
      | some d => if d < base then takeDigits base cs (some ((acc.getD 0) * base + d)) else acc
      | none => acc

/-- Models the ECMAScript parseInt builtin with no radix argument, as called
by the backfill handler: skip leading whitespace, read an optional sign, use
base 16 when a 0x / 0X prefix follows and base 10 otherwise, then convert the
longest leading digit run; an empty run gives NaN. -/
def parseIntJS (s : String) : JNum :=
  let cs := s.data.dropWhile (fun c => c = ' ' ∨ c = '\t' ∨ c = '\n' ∨ c = '\r')
  let signed : Bool × List Char :=
    match cs with
    | '-' :: rest => (true, rest)
    | '+' :: rest => (false, rest)
    | _ => (false, cs)
  let based : Nat × List Char :=
    match signed.2 with
    | '0' :: 'x' :: rest => (16, rest)
    | '0' :: 'X' :: rest => (16, rest)
    | _ => (10, signed.2)
  match takeDigits based.1 based.2 none with
  | none => JNum.nan
  | some n => JNum.int (if signed.1 then -(n : Int) else (n : Int))

/-- The MongoDB collection: a list of documents, each an ObjectId (modelled
by its 24-char hex string) paired with its remaining fields.  Store keys are
unique; the _id is kept separate from the other fields. -/
abbrev Store := List (String × Doc)

/-- Candidate filter of readDocuments: plot exists and plot_embedding does
not (src/functions/createInitialEmbeddings/index.ts, line 23). -/
def isCandidate (fields : Doc) : Bool :=
  hasField fields "plot" && !hasField fields "plot_embedding"

/-- Models the MongoDB cursor limit(n): n = 0 means no limit; a positive n
returns the first n matches; a negative n behaves like its absolute value
(and additionally closes the cursor, which has no observable effect here). -/
def mongoLimit (limit : Int) (docs : List α) : List α :=
  if limit = 0 then docs else docs.take limit.natAbs

/-- readDocuments (src/functions/createInitialEmbeddings/index.ts, lines
20-30): find the documents with a plot field and no plot_embedding field,
limited to count. -/
def readDocuments (store : Store) (count : Int) : List (String × Doc) :=
  mongoLimit count (store.filter (fun e => isCandidate e.2))

/-- The limit the backfill handler passes to readDocuments
(src/functions/createInitialEmbeddings/index.ts, line 98):
count ? parseInt(count) : 50.  A missing parameter is none; the empty string
is the only falsy string, so it also selects the default of 50. -/
def backfillLimit (count : Option String) : JNum :=
  match count with
  | none => JNum.int 50
  | some c => if c = "" then JNum.int 50 else parseIntJS c

/-- The full document snapshot a store entry serializes to: its _id (an
ObjectId, which JSON.stringify turns into its hex string) followed by the
other fields in stored order. -/
def fullDocumentJson (key : String) (fields : Doc) : Json :=
  Json.obj (("_id", Json.str key) :: fields)

/-- The MessageBody built by sendToQueueInBatches
(src/functions/createInitialEmbeddings/index.ts, lines 48-57): the reduced
EventBridge envelope around one change event. -/
def changeEventBody (envelopeId : String) (key : String) (fields : Doc) : Json :=
  Json.obj
    [("version", Json.str "0"),
     ("id", Json.str envelopeId),
     ("detail-type", Json.str "MongoDB Database Trigger for sample_mflix.movies"),
     ("detail", Json.obj
       [("operationType", Json.str "update"),
        ("fullDocument", fullDocumentJson key fields),
        ("documentKey", Json.obj [("_id", Json.str key)])])]

/-- One SQS SendMessageBatch entry: the per-entry Id (a random UUID in the
source) and the message body (carried as its JSON value: JSON.parse of
JSON.stringify is the identity on the JSON AST). -/
structure QueueEntry where
  entryId : String
  messageBody : Json
  deriving DecidableEq

/-- The entry built for one document read from the store. -/
def mkEntry (uuidEntry uuidEnvelope : String) (d : String × Doc) : QueueEntry :=
  ⟨uuidEntry, changeEventBody uuidEnvelope d.1 d.2⟩

/-- All entries for a document list, in order.  uuid models the stream of
randomUUID() results; entry i consumes the values at 2i and 2i+1. -/
def mkEntries (uuid : Nat → String) (i : Nat) : List (String × Doc) → List QueueEntry
  | [] => []
  | d :: ds => mkEntry (uuid (2 * i)) (uuid (2 * i + 1)) d :: mkEntries uuid (i + 1) ds

/-- The batching loop of sendToQueueInBatches
(src/functions/createInitialEmbeddings/index.ts, lines 43-66): push each
entry onto the current batch and flush the batch exactly when it reaches
batchSize.  The result is the list of flushed batches, in flush order, and
the returned sentCount.  A trailing batch shorter than batchSize is never
flushed, exactly as in the source. -/
def sendLoop (batchSize : Nat) : List QueueEntry → List QueueEntry → List (List QueueEntry) × Nat
  | [], _batch => ([], 0)
  | e :: rest, batch =>
      let batch' := batch ++ [e]
      if batch'.length = batchSize then
        let r := sendLoop batchSize rest []
        (batch' :: r.1, batch'.length + r.2)
      else
        sendLoop batchSize rest batch'

/-- sendToQueueInBatches: entries are built per document (the loop body
builds each entry just before pushing it; building them up front is
equivalent since construction is pure), then batched by sendLoop starting
from an empty batch. -/
def sendToQueueInBatches (uuid : Nat → String) (documents : List (String × Doc))
    (batchSize : Nat) : List (List QueueEntry) × Nat :=
  sendLoop batchSize (mkEntries uuid 0 documents) []

/-- Reference chunking: the sequential non-overlapping chunks of exactly B
elements (the trailing partial chunk is dropped).  Used to state what the
dispatcher flushes. -/
def chunksExact (B : Nat) (l : List α) : List (List α) :=
  if h : 0 < B ∧ B ≤ l.length then
    have : l.length - B < l.length := by
      have hB := h.1
      have hle := h.2
      omega
    l.take B :: chunksExact B (l.drop B)
  else []
termination_by l.length
decreasing_by simpa using this

theorem chunksExact_of_lt (B : Nat) (l : List α) (h : l.length < B) :
    chunksExact B l = [] := by
  have hc : ¬(0 < B ∧ B ≤ l.length) := by omega
  rw [chunksExact, dif_neg hc]

theorem chunksExact_of_le (B : Nat) (l : List α) (hB : 0 < B) (h : B ≤ l.length) :
    chunksExact B l = l.take B :: chunksExact B (l.drop B) := by
  rw [chunksExact]
  simp [hB, h]

theorem chunksExact_zero (l : List α) : chunksExact 0 l = [] := by
  rw [chunksExact]
  simp

theorem sendLoop_zero (l batch : List QueueEntry) : sendLoop 0 l batch = ([], 0) := by
  induction l generalizing batch with
  | nil => rfl
  | cons e rest ih =>
      have hne : (batch ++ [e]).length ≠ 0 := by simp
      simp only [sendLoop, if_neg hne]
      exact ih (batch ++ [e])

theorem sendLoop_acc (B : Nat) (l : List QueueEntry) :
    ∀ batch : List QueueEntry, batch.length < B →
    sendLoop B l batch =
      if l.length < B - batch.length then ([], 0)
      else ((batch ++ l.take (B - batch.length)) :: (sendLoop B (l.drop (B - batch.length)) []).1,
            B + (sendLoop B (l.drop (B - batch.length)) []).2) := by
  induction l with
  | nil =>
      intro batch hb
      rw [sendLoop, if_pos (by simpa using Nat.sub_pos_of_lt hb)]
  | cons e rest ih =>
      intro batch hb
      obtain ⟨k, hk⟩ : ∃ k, B - batch.length = k + 1 :=
        ⟨B - batch.length - 1, by omega⟩
      rw [sendLoop]
      by_cases hfull : (batch ++ [e]).length = B
      · have hk0 : k = 0 := by simp at hfull; omega
        subst hk0
        rw [if_pos hfull]
        rw [if_neg (by simp [hk])]
        simp [hk, hfull]
      · have hlt : (batch ++ [e]).length < B := by
          simp only [List.length_append, List.length_singleton] at hfull ⊢
          omega
        rw [if_neg hfull]
        rw [ih (batch ++ [e]) hlt]
        have hsub : B - (batch ++ [e]).length = k := by simp at hk ⊢; omega
        rw [hsub, hk]
        simp only [List.length_cons, List.take_succ_cons, List.drop_succ_cons]
        have hcond : rest.length < k ↔ rest.length + 1 < k + 1 := by omega
        by_cases hrl : rest.length < k
        · rw [if_pos hrl, if_pos (by omega)]
        · rw [if_neg hrl, if_neg (by omega)]
          simp

theorem sendLoop_spec (B : Nat) (hB : 0 < B) (l : List QueueEntry) :
    sendLoop B l [] = (chunksExact B l, B * (l.length / B)) := by
  suffices h : ∀ (n : Nat) (l : List QueueEntry), l.length = n →
      sendLoop B l [] = (chunksExact B l, B * (l.length / B)) from h l.length l rfl
  intro n
  induction n using Nat.strong_induction_on with
  | _ n ih =>
    intro l hn
    subst hn
    rw [sendLoop_acc B l [] (by simpa using hB)]
    simp only [List.length_nil, Nat.sub_zero, List.nil_append]
    by_cases hlen : l.length < B
    · rw [if_pos hlen, chunksExact_of_lt B l hlen, Nat.div_eq_of_lt hlen]
      simp
    · push_neg at hlen
      rw [if_neg (by omega)]
      have hdrop : (l.drop B).length < l.length := by
        simp only [List.length_drop]
        omega
      have hrec := ih (l.drop B).length hdrop (l.drop B) rfl
      rw [chunksExact_of_le B l hB hlen, hrec]
      simp only [List.length_drop]
      rw [Nat.div_eq_sub_div hB hlen]
      simp only [Prod.mk.injEq, true_and]
      ring

theorem chunksExact_props (B : Nat) (hB : 0 < B) (l : List α) :
    (chunksExact B l).length = l.length / B ∧
    (∀ c ∈ chunksExact B l, c.length = B) ∧
    (chunksExact B l).flatten = l.take (B * (l.length / B)) := by
  suffices h : ∀ (n : Nat) (l : List α), l.length = n →
      (chunksExact B l).length = l.length / B ∧
      (∀ c ∈ chunksExact B l, c.length = B) ∧
      (chunksExact B l).flatten = l.take (B * (l.length / B)) from h l.length l rfl
  intro n
  induction n using Nat.strong_induction_on with
  | _ n ih =>
    intro l hn
    subst hn
    by_cases hlen : l.length < B
    · rw [chunksExact_of_lt B l hlen, Nat.div_eq_of_lt hlen]
      simp
    · push_neg at hlen
      have hdrop : (l.drop B).length < l.length := by
        simp only [List.length_drop]
        omega
      obtain ⟨ihlen, ihmem, ihjoin⟩ := ih (l.drop B).length hdrop (l.drop B) rfl
      rw [chunksExact_of_le B l hB hlen]
      refine ⟨?_, ?_, ?_⟩
      · simp only [List.length_cons, ihlen, List.length_drop]
        rw [Nat.div_eq_sub_div hB hlen]
      · intro c hc
        rcases List.mem_cons.mp hc with h | h
        · subst h
          exact List.length_take_of_le hlen
        · exact ihmem c h
      · simp only [List.flatten_cons, ihjoin, List.length_drop]
        rw [← List.take_add]
        rw [Nat.div_eq_sub_div hB hlen]
        ring_nf

theorem mkEntries_length (uuid : Nat → String) (i : Nat) (documents : List (String × Doc)) :
    (mkEntries uuid i documents).length = documents.length := by
  induction documents generalizing i with
  | nil => rfl
  | cons d ds ih => simp [mkEntries, ih]

/-- A list of n distinct minimal candidate documents, used for the concrete
boundary examples of the dispatcher. -/
def sampleDocs (n : Nat) : List (String × Doc) :=
  (List.range n).map (fun i => ("k" ++ toString i, [("plot", Json.str "plot")]))

theorem sampleDocs_length (n : Nat) : (sampleDocs n).length = n := by
  simp [sampleDocs]

theorem sendToQueueInBatches_spec (uuid : Nat → String)
    (documents : List (String × Doc)) (B : Nat) :
    (sendToQueueInBatches uuid documents B).2 = B * (documents.length / B) ∧
    (sendToQueueInBatches uuid documents B).1.length = documents.length / B ∧
    (∀ b ∈ (sendToQueueInBatches uuid documents B).1, b.length = B) ∧
    (sendToQueueInBatches uuid documents B).1.flatten
      = (mkEntries uuid 0 documents).take (B * (documents.length / B)) := by
  rcases Nat.eq_zero_or_pos B with h0 | hB
  · subst h0
    unfold sendToQueueInBatches
    rw [sendLoop_zero]
    exact ⟨by simp, by simp, by simp, by simp⟩
  · unfold sendToQueueInBatches
    rw [sendLoop_spec B hB]
    obtain ⟨h1, h2, h3⟩ := chunksExact_props B hB (mkEntries uuid 0 documents)
    rw [mkEntries_length] at h1 h3
    exact ⟨by simp [mkEntries_length], by simpa using h1, by simpa using h2, by simpa using h3⟩

/-- C1: for every list of N documents and batch size B (default 10 in the
source), sendToQueueInBatches flushes the entries in sequential
non-overlapping chunks of exactly B (the flushed batches are, in order,
precisely the exact-B chunks of the entry list, one entry per document),
sends exactly floor(N/B) full batches, enqueues exactly B * floor(N/B)
messages and returns that count, and never sends the trailing N mod B
documents; in particular 25 documents at B = 10 give a sent count of 20 and
7 documents at the default B = 10 give a sent count of 0. -/
theorem dispatch_sends_only_full_batches (uuid : Nat → String)
    (documents : List (String × Doc)) (B : Nat) :
    (sendToQueueInBatches uuid documents B).2 = B * (documents.length / B) ∧
    (sendToQueueInBatches uuid documents B).1.length = documents.length / B ∧
    (∀ b ∈ (sendToQueueInBatches uuid documents B).1, b.length = B) ∧
    (sendToQueueInBatches uuid documents B).1.flatten
      = (mkEntries uuid 0 documents).take (B * (documents.length / B)) ∧
    (mkEntries uuid 0 documents).length = documents.length ∧
    (sendToQueueInBatches (fun _ => "uuid") (sampleDocs 25) 10).2 = 20 ∧
    (sendToQueueInBatches (fun _ => "uuid") (sampleDocs 7) 10).2 = 0 := by
  obtain ⟨h1, h2, h3, h4⟩ := sendToQueueInBatches_spec uuid documents B
  have e25 := (sendToQueueInBatches_spec (fun _ => "uuid") (sampleDocs 25) 10).1
  have e7 := (sendToQueueInBatches_spec (fun _ => "uuid") (sampleDocs 7) 10).1
  rw [sampleDocs_length] at e25 e7
  exact ⟨h1, h2, h3, h4, mkEntries_length uuid 0 documents, e25, e7⟩

/-- Witness for C1 at a concrete input: three documents at batch size 2 send
one full batch of two messages, and the concrete boundary examples of the
claim hold. -/
theorem dispatch_sends_only_full_batches_witness :
    (sendToQueueInBatches (fun _ => "uuid") (sampleDocs 3) 2).2 = 2 ∧
    (sendToQueueInBatches (fun _ => "uuid") (sampleDocs 25) 10).2 = 20 ∧
    (sendToQueueInBatches (fun _ => "uuid") (sampleDocs 7) 10).2 = 0 := by
  have h := dispatch_sends_only_full_batches (fun _ => "uuid") (sampleDocs 3) 2
  refine ⟨?_, h.2.2.2.2.2.1, h.2.2.2.2.2.2⟩
  rw [h.1, sampleDocs_length]

/-- JavaScript property access v.key on a parsed JSON value: reading a
property of null throws a TypeError; objects yield the field value or
undefined (none); other values have no such named own property, so the read
yields undefined.  (Array index and string index properties are never read
by the modelled code.) -/
def jsMember (v : Json) (key : String) : Except String (Option Json) :=
  match v with
  | Json.null => Except.error "TypeError"
  | Json.obj fields => Except.ok (getField fields key)
  | _ => Except.ok none

/-- JavaScript truthiness of a value (undefined is modelled by none).
Note that an empty array is truthy. -/
def jsTruthy : Option Json → Bool
  | none => false
  | some Json.null => false
  | some (Json.bool b) => b
  | some (Json.num q) => q ≠ 0
  | some (Json.str s) => s ≠ ""
  | some (Json.arr _) => true
  | some (Json.obj _) => true

/-- The destructuring in recordHandler
(src/functions/createInitialEmbeddings/index.ts, lines 203-206):
const ( documentKey: ( _id: id ), fullDocument: ( _id, ...document ) ) =
payload.detail.  Destructuring null or undefined throws a TypeError; the
rest pattern over a primitive produces an empty object (own index
properties of strings and arrays are not modelled; no claim feeds a
non-object fullDocument).  Returns the extracted id value (possibly
undefined) and the document without its _id field. -/
def destructureEvent (payload : Json) : Except String (Option Json × Doc) := do
  let detailOpt ← jsMember payload "detail"
  match detailOpt with
  | none => Except.error "TypeError"
  | some detail => do
      let documentKeyOpt ← jsMember detail "documentKey"
      let idOpt ←
        match documentKeyOpt with
        | none => Except.error "TypeError"
        | some dk => jsMember dk "_id"
      let fullDocOpt ← jsMember detail "fullDocument"
      match fullDocOpt with
      | none => Except.error "TypeError"
      | some Json.null => Except.error "TypeError"
      | some (Json.obj fields) => Except.ok (idOpt, removeField fields "_id")
      | some _ => Except.ok (idOpt, [])

/-- Whether a string is a valid 24-character hex ObjectId representation. -/
def isObjectIdHex (s : String) : Bool :=
  s.length = 24 && s.data.all (fun c => (digitValue c).isSome)

/-- Models new ObjectId(id) as called by writeEmbedding.  A valid 24-char
hex string yields that key; an invalid string throws a BSONError.  For a
null, undefined or numeric argument the real constructor generates a fresh
ObjectId; its 12 random-or-time bytes match no stored document, so the
subsequent replace matches nothing and writeEmbedding throws all the same.
Only that thrown outcome is observable, so those inputs are modelled as the
same immediate error. -/
def mkObjectId (v : Option Json) : Except String String :=
  match v with
  | some (Json.str s) => if isObjectIdHex s then Except.ok s else Except.error "BSONError"
  | _ => Except.error "BSONError"

/-- Result of a MongoDB replaceOne call: the updated collection and the
matched / modified counts.  Per the MongoDB documentation, modifiedCount
counts only documents the replacement actually changed: replacing a
document with an identical document is a no-op reported with
modifiedCount 0. -/
structure ReplaceResult where
  store : Store
  matchedCount : Nat
  modifiedCount : Nat
  deriving DecidableEq

/-- Models collection.replaceOne with filter (_id : key): the first entry
with that key is replaced by the replacement fields (the _id itself is
immutable and retained); modifiedCount is 1 only when the stored fields
change. -/
def replaceOne : Store → String → Doc → ReplaceResult
  | [], _, _ => ⟨[], 0, 0⟩
  | (k, fields) :: rest, key, replacement =>
      if k = key then
        ⟨(k, replacement) :: rest, 1, if fields = replacement then 0 else 1⟩
      else
        let r := replaceOne rest key replacement
        ⟨(k, fields) :: r.store, r.matchedCount, r.modifiedCount⟩

instance {α β : Type} [DecidableEq α] [DecidableEq β] : DecidableEq (Except α β) := fun a b =>
  match a, b with
  | Except.error x, Except.error y =>
      if h : x = y then isTrue (by rw [h]) else isFalse (by simp [h])
  | Except.ok x, Except.ok y =>
      if h : x = y then isTrue (by rw [h]) else isFalse (by simp [h])
  | Except.error _, Except.ok _ => isFalse (by simp)
  | Except.ok _, Except.error _ => isFalse (by simp)

/-- Outcome of writeEmbedding: the thrown-or-ok result, the store after the
call, and whether a replace was issued to the store (instrumentation used
to state that failures before the write never touch the store). -/
structure WriteOutcome where
  result : Except String Unit
  store : Store
  wrote : Bool
  deriving DecidableEq

/-- writeEmbedding (src/functions/createInitialEmbeddings/index.ts, lines
143-161): replaceOne on the id, then throw when modifiedCount is not 1. -/
def writeEmbedding (store : Store) (idVal : Option Json) (fullDocument : Doc) : WriteOutcome :=
  match mkObjectId idVal with
  | Except.error e => ⟨Except.error e, store, false⟩
  | Except.ok key =>
      let r := replaceOne store key fullDocument
      if r.modifiedCount = 1 then ⟨Except.ok (), r.store, true⟩
      else ⟨Except.error "Unable to update document", r.store, true⟩

/-- The embedding client as seen by the consumer: getEmbedding applied to
the value of document.plot (undefined when the field is missing), returning
the embedding value or throwing. -/
abbrev Embedder := Option Json → Except String Json

/-- One SQS record as delivered to the consumer: its messageId and its body.
The body is carried as its parsed JSON value; none models a body that is
not valid JSON, on which JSON.parse throws. -/
structure SQSRecord where
  messageId : String
  body : Option Json
  deriving DecidableEq

/-- Result of recordHandler on one record: the outcome (the source rethrows
every error after logging), the store after the record, the inputs the
embedding client was called with, and whether a store write was issued. -/
structure RecordResult where
  outcome : Except String Unit
  store : Store
  embedCalls : List (Option Json)
  wrote : Bool

/-- recordHandler (src/functions/createInitialEmbeddings/index.ts, lines
171-234), in source order: the remaining-time guard, the body parse, the
payload destructuring, the embedding call on document.plot, the
plot_embedding assignment, and writeEmbedding on the extracted id. -/
def recordHandler (embed : Embedder) (record : SQSRecord) (remainingTime : Nat)
    (store : Store) : RecordResult :=
  if remainingTime < 1000 then
    ⟨Except.error "Time is about to expire, stopping processing", store, [], false⟩
  else
    match record.body with
    | none => ⟨Except.error "Unable to parse SQS record", store, [], false⟩
    | some payload =>
        match destructureEvent payload with
        | Except.error e => ⟨Except.error e, store, [], false⟩
        | Except.ok (idOpt, document) =>
            let plotVal := getField document "plot"
            match embed plotVal with
            | Except.error _ => ⟨Except.error "Unble to create embedding", store, [plotVal], false⟩
            | Except.ok emb =>
                let written := writeEmbedding store idOpt (setField document "plot_embedding" emb)
                match written.result with
                | Except.error _ =>
                    ⟨Except.error "Unable to write embedding", written.store, [plotVal], written.wrote⟩
                | Except.ok _ => ⟨Except.ok (), written.store, [plotVal], written.wrote⟩

/-- The Powertools BatchProcessor loop: each delivered record is processed
in delivery order by recordHandler, none is skipped, and the
messageId of each record is paired with its outcome.  Each record carries the
getRemainingTimeInMillis reading observed when it is processed. -/
def processBatch (embed : Embedder) : List (SQSRecord × Nat) → Store →
    List (String × Except String Unit) × Store
  | [], store => ([], store)
  | (r, t) :: rest, store =>
      let res := recordHandler embed r t store
      let tail := processBatch embed rest res.store
      ((r.messageId, res.outcome) :: tail.1, tail.2)

/-- Whether an outcome is a failure. -/
def isFailure : Except String Unit → Bool
  | Except.error _ => true
  | Except.ok _ => false

/-- The response built by processPartialResponse from the per-record
outcomes, per the Powertools partial-batch utility: no failures gives an
empty batchItemFailures list; every record failing makes the handler throw
(so the whole delivered batch is redelivered); otherwise batchItemFailures
lists exactly the messageIds of the failed records. -/
def buildBatchResponse (outcomes : List (String × Except String Unit)) :
    Except String (List String) :=
  let failures := (outcomes.filter (fun o => isFailure o.2)).map (fun o => o.1)
  if failures.isEmpty then Except.ok []
  else if failures.length = outcomes.length then
    Except.error "All records failed processing"
  else Except.ok failures

/-- The full SQS handler (src/functions/createInitialEmbeddings/index.ts,
lines 247-256): process the batch, then report the partial failures. -/
def batchHandler (embed : Embedder) (batch : List (SQSRecord × Nat)) (store : Store) :
    Except String (List String) × Store :=
  let p := processBatch embed batch store
  (buildBatchResponse p.1, p.2)

/-- The set of messageIds the queue will redeliver after a batch response:
every id of the batch when the handler threw, the reported
batchItemFailures otherwise. -/
def redeliveredIds (resp : Except String (List String)) (batch : List (SQSRecord × Nat)) :
    List String :=
  match resp with
  | Except.error _ => batch.map (fun rt => rt.1.messageId)
  | Except.ok l => l

theorem replaceOne_modifiedCount_le_one (store : Store) (key : String) (d : Doc) :
    (replaceOne store key d).modifiedCount ≤ 1 := by
  induction store with
  | nil => simp [replaceOne]
  | cons e rest ih =>
      obtain ⟨k, fields⟩ := e
      by_cases hk : k = key
      · simp only [replaceOne, if_pos hk]
        split <;> simp
      · simpa [replaceOne, hk] using ih

theorem replaceOne_store_of_not_modified (store : Store) (key : String) (d : Doc)
    (h : (replaceOne store key d).modifiedCount = 0) :
    (replaceOne store key d).store = store := by
  induction store with
  | nil => rfl
  | cons e rest ih =>
      obtain ⟨k, fields⟩ := e
      by_cases hk : k = key
      · simp only [replaceOne, if_pos hk] at h ⊢
        by_cases he : fields = d
        · simp [← he]
        · simp [he] at h
      · simp only [replaceOne, if_neg hk] at h ⊢
        rw [ih h]

theorem writeEmbedding_error_store (store : Store) (idVal : Option Json) (d : Doc)
    (h : isFailure (writeEmbedding store idVal d).result = true) :
    (writeEmbedding store idVal d).store = store := by
  unfold writeEmbedding at h ⊢
  cases hid : mkObjectId idVal with
  | error e => simp [hid]
  | ok key =>
      simp only [hid] at h ⊢
      by_cases hm : (replaceOne store key d).modifiedCount = 1
      · simp [hm, isFailure] at h
      · have h0 : (replaceOne store key d).modifiedCount = 0 := by
          have := replaceOne_modifiedCount_le_one store key d
          omega
        simp [hm, replaceOne_store_of_not_modified store key d h0]

theorem recordHandler_error_store (embed : Embedder) (r : SQSRecord) (t : Nat) (s : Store)
    (h : isFailure (recordHandler embed r t s).outcome = true) :
    (recordHandler embed r t s).store = s := by
  unfold recordHandler at h ⊢
  by_cases ht : t < 1000
  · simp [ht]
  · simp only [if_neg ht] at h ⊢
    cases hb : r.body with
    | none => simp
    | some payload =>
        simp only [hb] at h ⊢
        cases hd : destructureEvent payload with
        | error e => simp [hd]
        | ok iddoc =>
            simp only [hd] at h ⊢
            cases he : embed (getField iddoc.2 "plot") with
            | error e => simp [he]
            | ok emb =>
                simp only [he] at h ⊢
                cases hw : (writeEmbedding s iddoc.1 (setField iddoc.2 "plot_embedding" emb)).result with
                | error e =>
                    simp only [hw]
                    exact writeEmbedding_error_store s iddoc.1 _ (by simp [hw, isFailure])
                | ok u =>
                    simp only [hw] at h
                    simp [isFailure] at h

theorem processBatch_ids (embed : Embedder) (batch : List (SQSRecord × Nat)) (store : Store) :
    (processBatch embed batch store).1.map (fun o => o.1) =
      batch.map (fun rt => rt.1.messageId) := by
  induction batch generalizing store with
  | nil => rfl
  | cons rt rest ih => simp [processBatch, ih]

theorem processBatch_append (embed : Embedder) (l1 l2 : List (SQSRecord × Nat)) (store : Store) :
    processBatch embed (l1 ++ l2) store =
      ((processBatch embed l1 store).1 ++
        (processBatch embed l2 (processBatch embed l1 store).2).1,
       (processBatch embed l2 (processBatch embed l1 store).2).2) := by
  induction l1 generalizing store with
  | nil => simp [processBatch]
  | cons rt rest ih =>
      obtain ⟨r, t⟩ := rt
      simp [processBatch, ih]

theorem redelivered_buildBatchResponse (outcomes : List (String × Except String Unit))
    (batch : List (SQSRecord × Nat))
    (hids : outcomes.map (fun o => o.1) = batch.map (fun rt => rt.1.messageId)) :
    redeliveredIds (buildBatchResponse outcomes) batch =
      (outcomes.filter (fun o => isFailure o.2)).map (fun o => o.1) := by
  simp only [buildBatchResponse]
  by_cases h1 : ((outcomes.filter (fun o => isFailure o.2)).map (fun o => o.1)).isEmpty
  · rw [if_pos h1]
    simp only [redeliveredIds]
    exact (List.isEmpty_iff.mp h1).symm
  · rw [if_neg h1]
    by_cases h2 :
        ((outcomes.filter (fun o => isFailure o.2)).map (fun o => o.1)).length
          = outcomes.length
    · rw [if_pos h2]
      simp only [redeliveredIds]
      have hflen : (outcomes.filter (fun o => isFailure o.2)).length = outcomes.length := by
        simpa using h2
      have hfilter : outcomes.filter (fun o => isFailure o.2) = outcomes :=
        List.filter_eq_self.mpr (List.filter_length_eq_length.mp hflen)
      rw [hfilter, hids]
    · rw [if_neg h2]
      simp only [redeliveredIds]

theorem redeliveredIds_eq_failed (embed : Embedder) (batch : List (SQSRecord × Nat))
    (store : Store) :
    redeliveredIds (batchHandler embed batch store).1 batch =
      ((processBatch embed batch store).1.filter (fun o => isFailure o.2)).map
        (fun o => o.1) :=
  redelivered_buildBatchResponse (processBatch embed batch store).1 batch
    (processBatch_ids embed batch store)

/-- Key of the first example document (a 24-char hex ObjectId string). -/
def exampleKey1 : String := "aaaaaaaaaaaaaaaaaaaaaaaa"

/-- Key of a document not present in the example store. -/
def exampleKey2 : String := "cccccccccccccccccccccccc"

/-- Key of the second example document. -/
def exampleKey3 : String := "bbbbbbbbbbbbbbbbbbbbbbbb"

/-- A concrete store with two candidate documents. -/
def exampleStore : Store :=
  [(exampleKey1, [("plot", Json.str "A")]), (exampleKey3, [("plot", Json.str "C")])]

/-- An embedding client that fails exactly on the plot text B and otherwise
returns a fixed vector. -/
def exampleEmbed : Embedder := fun v =>
  if v = some (Json.str "B") then Except.error "model error"
  else Except.ok (Json.arr [Json.num 1])

/-- A delivered batch of three dispatcher-shaped records in which only the
second record fails (at the embedding step). -/
def exampleBatch : List (SQSRecord × Nat) :=
  [(⟨"m1", some (changeEventBody "e1" exampleKey1 [("plot", Json.str "A")])⟩, 10000),
   (⟨"m2", some (changeEventBody "e2" exampleKey2 [("plot", Json.str "B")])⟩, 10000),
   (⟨"m3", some (changeEventBody "e3" exampleKey3 [("plot", Json.str "C")])⟩, 10000)]

/-- C2: the Batch Consumer processes every delivered record independently: a
record failure leaves the store untouched, every record is attempted in
delivery order (the outcome-list entry of each record is exactly
recordHandler run on that record in the state left by its prefix, whatever
the other records did), and the set of messageIds left for redelivery is
exactly the set of messageIds of the failed records; in the concrete batch
of three where only record 2 fails at the embedding step, records 1 and 3
are reported success and m2 alone is reported for redelivery. -/
theorem batch_failures_isolated_and_reported (embed : Embedder)
    (batch : List (SQSRecord × Nat)) (store : Store) :
    ((processBatch embed batch store).1.map (fun o => o.1) =
      batch.map (fun rt => rt.1.messageId)) ∧
    (∀ r t s, isFailure (recordHandler embed r t s).outcome = true →
      (recordHandler embed r t s).store = s) ∧
    (∀ pre rt post, batch = pre ++ rt :: post →
      (processBatch embed batch store).1 =
        (processBatch embed pre store).1 ++
          (rt.1.messageId,
            (recordHandler embed rt.1 rt.2 (processBatch embed pre store).2).outcome) ::
          (processBatch embed (rt :: post) (processBatch embed pre store).2).1.tail) ∧
    (redeliveredIds (batchHandler embed batch store).1 batch =
      ((processBatch embed batch store).1.filter (fun o => isFailure o.2)).map
        (fun o => o.1)) ∧
    (processBatch exampleEmbed exampleBatch exampleStore).1 =
      [("m1", Except.ok ()), ("m2", Except.error "Unble to create embedding"),
       ("m3", Except.ok ())] ∧
    (batchHandler exampleEmbed exampleBatch exampleStore).1 = Except.ok ["m2"] := by
  refine ⟨processBatch_ids embed batch store, recordHandler_error_store embed, ?_,
    redeliveredIds_eq_failed embed batch store, by decide, by decide⟩
  intro pre rt post hsplit
  subst hsplit
  rw [processBatch_append embed pre (rt :: post) store]
  obtain ⟨r, t⟩ := rt
  simp [processBatch]

/-- Witness for C2 at the concrete batch: all three records are attempted
in order and only m2 is left for redelivery. -/
theorem batch_failures_isolated_and_reported_witness :
    (processBatch exampleEmbed exampleBatch exampleStore).1.map (fun o => o.1) =
      ["m1", "m2", "m3"] ∧
    redeliveredIds (batchHandler exampleEmbed exampleBatch exampleStore).1 exampleBatch =
      ["m2"] := by
  have h := batch_failures_isolated_and_reported exampleEmbed exampleBatch exampleStore
  constructor
  · rw [h.1]
    decide
  · rw [h.2.2.2.1]
    decide

/-- C4: a record processed with remaining time below the 1000 ms safety
threshold is failed immediately as retriable: the store is returned
unchanged with no write issued, the embedding client is never called, and
the outcome does not depend on the record body at all (the payload parse is
never attempted). -/
theorem time_guard_fails_before_any_work (embed : Embedder) (record : SQSRecord)
    (t : Nat) (store : Store) (h : t < 1000) :
    recordHandler embed record t store =
      ⟨Except.error "Time is about to expire, stopping processing", store, [], false⟩ ∧
    (∀ body2 : Option Json,
      recordHandler embed ⟨record.messageId, body2⟩ t store =
        recordHandler embed record t store) := by
  constructor
  · simp [recordHandler, h]
  · intro body2
    simp [recordHandler, h]

/-- Witness for C4 at remaining time 999 ms on an unparseable record. -/
theorem time_guard_fails_before_any_work_witness :
    recordHandler exampleEmbed ⟨"m1", none⟩ 999 exampleStore =
      ⟨Except.error "Time is about to expire, stopping processing", exampleStore, [], false⟩ :=
  (time_guard_fails_before_any_work exampleEmbed ⟨"m1", none⟩ 999 exampleStore
    (by decide)).1

theorem replaceOne_self_after (store : Store) (key : String) (d : Doc)
    (h : (replaceOne store key d).modifiedCount = 1) :
    replaceOne (replaceOne store key d).store key d =
      ⟨(replaceOne store key d).store, 1, 0⟩ := by
  induction store with
  | nil => simp [replaceOne] at h
  | cons e rest ih =>
      obtain ⟨k, fields⟩ := e
      by_cases hk : k = key
      · simp [replaceOne, hk]
      · simp only [replaceOne, if_neg hk] at h ⊢
        rw [ih h]

/-- C3 amended: re-processing the same Change Event (same key, same text)
computes the same embedding and the same replacement document, and leaves
the stored document unchanged — but the second replace is a no-op observed
with modifiedCount 0, so writeEmbedding throws and the second application
of recordHandler reports the record failed instead of succeeding. -/
theorem duplicate_event_second_apply_fails (embed : Embedder) (record : SQSRecord)
    (t1 t2 : Nat) (store : Store)
    (hok : (recordHandler embed record t1 store).outcome = Except.ok ())
    (ht2 : 1000 ≤ t2) :
    (recordHandler embed record t2 (recordHandler embed record t1 store).store).outcome =
      Except.error "Unable to write embedding" ∧
    (recordHandler embed record t2 (recordHandler embed record t1 store).store).store =
      (recordHandler embed record t1 store).store ∧
    (recordHandler embed record t2 (recordHandler embed record t1 store).store).embedCalls =
      (recordHandler embed record t1 store).embedCalls := by
  by_cases ht1 : t1 < 1000
  · simp [recordHandler, ht1] at hok
  cases hb : record.body with
  | none => simp [recordHandler, ht1, hb] at hok
  | some payload =>
  cases hd : destructureEvent payload with
  | error e => simp [recordHandler, ht1, hb, hd] at hok
  | ok iddoc =>
  obtain ⟨idOpt, document⟩ := iddoc
  cases he : embed (getField document "plot") with
  | error e => simp [recordHandler, ht1, hb, hd, he] at hok
  | ok emb =>
  cases hid : mkObjectId idOpt with
  | error e => simp [recordHandler, writeEmbedding, ht1, hb, hd, he, hid] at hok
  | ok key =>
  by_cases hm :
      (replaceOne store key (setField document "plot_embedding" emb)).modifiedCount = 1
  · have hsecond := replaceOne_self_after store key (setField document "plot_embedding" emb) hm
    simp [recordHandler, writeEmbedding, ht1, hb, hd, he, hid, hm, hsecond,
      Nat.not_lt.mpr ht2]
  · simp [recordHandler, writeEmbedding, ht1, hb, hd, he, hid, hm] at hok

/-- The dispatcher-shaped record for the first example document. -/
def exampleEvent1 : SQSRecord :=
  ⟨"m1", some (changeEventBody "e1" exampleKey1 [("plot", Json.str "A")])⟩

/-- Witness for the amended C3 at a concrete event: the first apply
succeeds and the second apply fails, leaving the store unchanged and
calling the embedding client on the same input. -/
theorem duplicate_event_second_apply_fails_witness :
    (recordHandler exampleEmbed exampleEvent1 10000
        (recordHandler exampleEmbed exampleEvent1 10000 exampleStore).store).outcome =
      Except.error "Unable to write embedding" ∧
    (recordHandler exampleEmbed exampleEvent1 10000
        (recordHandler exampleEmbed exampleEvent1 10000 exampleStore).store).store =
      (recordHandler exampleEmbed exampleEvent1 10000 exampleStore).store ∧
    (recordHandler exampleEmbed exampleEvent1 10000
        (recordHandler exampleEmbed exampleEvent1 10000 exampleStore).store).embedCalls =
      (recordHandler exampleEmbed exampleEvent1 10000 exampleStore).embedCalls :=
  duplicate_event_second_apply_fails exampleEmbed exampleEvent1 10000 10000 exampleStore
    (by decide) (by decide)

/-- C3 counterexample: processing the same Change Event twice does NOT
leave modifiedCount observable as 1 on both applies.  At this concrete
input the first application of recordHandler succeeds (modifiedCount 1),
but the second application replaces the stored document with an identical
document, observes modifiedCount 0, and fails with the wrapped write
error. -/
theorem duplicate_event_counterexample :
    (recordHandler exampleEmbed exampleEvent1 10000 exampleStore).outcome =
      Except.ok () ∧
    (recordHandler exampleEmbed exampleEvent1 10000
        (recordHandler exampleEmbed exampleEvent1 10000 exampleStore).store).outcome =
      Except.error "Unable to write embedding" ∧
    (replaceOne (recordHandler exampleEmbed exampleEvent1 10000 exampleStore).store
        exampleKey1
        [("plot", Json.str "A"), ("plot_embedding", Json.arr [Json.num 1])]).modifiedCount
      = 0 := by
  decide

theorem removeField_of_not_mem (fields : Doc) (key : String)
    (h : key ∉ fields.map (fun f => f.1)) : removeField fields key = fields := by
  induction fields with
  | nil => rfl
  | cons f rest ih =>
      simp only [List.map_cons, List.mem_cons] at h
      push_neg at h
      have hne : ¬(f.1 = key) := fun he => h.1 he.symm
      simp [removeField, hne, ih h.2]

/-- C5: the queue message built by the Backfill Dispatcher round-trips
through the parsing done by the Batch Consumer: the detail of the parsed
payload carries
operation type update, exactly the original full document snapshot and the
original document key, and destructuring it recovers exactly that key and
the fields of the snapshot (minus _id, which the consumer splits off);
hence any
external change-capture message with the same body is processed identically
to the dispatcher-produced one by recordHandler. -/
theorem dispatch_message_roundtrip (uuidEntry uuidEnvelope : String) (key : String)
    (fields : Doc) (h : "_id" ∉ fields.map (fun f => f.1)) :
    destructureEvent (mkEntry uuidEntry uuidEnvelope (key, fields)).messageBody =
      Except.ok (some (Json.str key), fields) ∧
    jsMember (mkEntry uuidEntry uuidEnvelope (key, fields)).messageBody "detail" =
      Except.ok (some (Json.obj
        [("operationType", Json.str "update"),
         ("fullDocument", fullDocumentJson key fields),
         ("documentKey", Json.obj [("_id", Json.str key)])])) ∧
    (∀ (embed : Embedder) (mid : String) (t : Nat) (store : Store) (external : Json),
      external = (mkEntry uuidEntry uuidEnvelope (key, fields)).messageBody →
      recordHandler embed ⟨mid, some external⟩ t store =
        recordHandler embed
          ⟨mid, some (mkEntry uuidEntry uuidEnvelope (key, fields)).messageBody⟩ t store) := by
  refine ⟨?_, rfl, ?_⟩
  · show Except.ok (some (Json.str key), removeField fields "_id") =
      Except.ok (some (Json.str key), fields)
    rw [removeField_of_not_mem fields "_id" h]
  · intro embed mid t store external hx
    rw [hx]

/-- Witness for C5 at a concrete document. -/
theorem dispatch_message_roundtrip_witness :
    destructureEvent (mkEntry "u1" "u2" (exampleKey1, [("plot", Json.str "A")])).messageBody =
      Except.ok (some (Json.str exampleKey1), [("plot", Json.str "A")]) :=
  (dispatch_message_roundtrip "u1" "u2" exampleKey1 [("plot", Json.str "A")]
    (by decide)).1

/-- Modelled from the spec: the value of MONGODB_SEARCH_INDEX_NAME, which
lives in src/functions/commons/constants.ts, a file that is not part of the
provided source tree; the repository README (src/unnamed/part_000)
instructs creating the search index under the name default, which is the
value the search function passes as index. -/
def MONGODB_SEARCH_INDEX_NAME : String := "default"

/-- One field mapping of an Atlas search index definition. -/
structure AtlasIndexField where
  dimensions : Nat
  similarity : String
  fieldType : String
  deriving DecidableEq

/-- The name of the vector search index the README instructs creating. -/
def readmeIndexName : String := "default"

/-- The field mappings of the vector search index the README instructs
creating on the movies collection (src/unnamed/part_000, lines 67-80):
plot_embedding is a knnVector of 1536 dimensions with cosine similarity. -/
def vectorIndexFields : List (String × AtlasIndexField) :=
  [("plot_embedding", ⟨1536, "cosine", "knnVector"⟩)]

/-- The knnBeta operator of the $search stage. -/
structure KnnBeta where
  vector : Json
  path : String
  k : Nat
  deriving DecidableEq

/-- The $search aggregation stage. -/
structure SearchStage where
  index : String
  knnBeta : KnnBeta
  deriving DecidableEq

/-- The $search stage built by knnSearch (src/functions/search/index.ts,
lines 20-30). -/
def knnSearchStage (embedding : Json) : SearchStage :=
  ⟨MONGODB_SEARCH_INDEX_NAME, ⟨embedding, "plot_embedding", 3⟩⟩

/-- A store entry together with its similarity score. -/
abbrev Scored := String × Doc × Rat

/-- Descending-score order on scored entries. -/
def scoreGE (a b : Scored) : Prop := b.2.2 ≤ a.2.2

instance : DecidableRel scoreGE := fun a b => inferInstanceAs (Decidable (b.2.2 ≤ a.2.2))

instance : IsTotal Scored scoreGE := ⟨fun a b => le_total b.2.2 a.2.2⟩

instance : IsTrans Scored scoreGE := ⟨fun _ _ _ h1 h2 => le_trans h2 h1⟩

/-- Models the Atlas $search knnBeta operator: the documents carrying the
indexed path are scored by the similarity function of the engine against the
query vector (the function itself belongs to the engine — configured as cosine by
the index definition above — and enters the model as a parameter), ranked
in descending score order, and the top k are returned with their scores. -/
def atlasKnn (sim : Json → Json → Rat) (store : Store) (stage : SearchStage) :
    List Scored :=
  (((store.filter (fun e => hasField e.2 stage.knnBeta.path)).map
      (fun e => (e.1, e.2,
        sim ((getField e.2 stage.knnBeta.path).getD Json.null) stage.knnBeta.vector))).insertionSort
    scoreGE).take stage.knnBeta.k

/-- The $project stage (src/functions/search/index.ts, lines 31-37): _id is
included by default, title and plot are kept when present on the stored
document, and the searchScore meta is added as score. -/
def projectResult (key : String) (fields : Doc) (score : Rat) : Json :=
  Json.obj (("_id", Json.str key) ::
    ((match getField fields "title" with
      | some t => [("title", t)]
      | none => []) ++
     (match getField fields "plot" with
      | some p => [("plot", p)]
      | none => []) ++
     [("score", Json.num score)]))

/-- knnSearch: run the two-stage aggregation and return the projected
result documents. -/
def knnSearch (sim : Json → Json → Rat) (store : Store) (embedding : Json) : List Json :=
  (atlasKnn sim store (knnSearchStage embedding)).map
    (fun r => projectResult r.1 r.2.1 r.2.2)

/-- The field names of a JSON object, in order. -/
def jsonKeys : Json → List String
  | Json.obj fields => fields.map (fun f => f.1)
  | _ => []

/-- The score field of a result document (0 when absent, never the case for
projected results). -/
def jsonScore : Json → Rat
  | Json.obj fields =>
      match getField fields "score" with
      | some (Json.num q) => q
      | _ => 0
  | _ => 0

theorem jsonScore_projectResult (key : String) (fields : Doc) (score : Rat) :
    jsonScore (projectResult key fields score) = score := by
  unfold projectResult jsonScore
  cases getField fields "title" <;> cases getField fields "plot" <;> simp [getField]

theorem jsonKeys_projectResult (key : String) (fields : Doc) (score : Rat)
    (ht : hasField fields "title" = true) (hp : hasField fields "plot" = true) :
    jsonKeys (projectResult key fields score) = ["_id", "title", "plot", "score"] := by
  rw [hasField] at ht hp
  obtain ⟨t, htt⟩ := Option.isSome_iff_exists.mp ht
  obtain ⟨p, hpp⟩ := Option.isSome_iff_exists.mp hp
  simp [projectResult, jsonKeys, htt, hpp]

/-- C6: knnSearch requests the top-3 nearest neighbours (k = 3) over the
plot_embedding field of the index that the README configures with cosine
similarity, returns at most 3 results in descending similarity order, and —
whenever every document carrying the vector field also carries title and
plot, as every document written by this pipeline does — each returned item
carries exactly the key, title, plot excerpt and similarity score. -/
theorem knn_search_top3_descending (sim : Json → Json → Rat) (store : Store)
    (embedding : Json) :
    (knnSearchStage embedding).knnBeta.k = 3 ∧
    (knnSearchStage embedding).knnBeta.path = "plot_embedding" ∧
    (knnSearchStage embedding).index = readmeIndexName ∧
    (vectorIndexFields.lookup (knnSearchStage embedding).knnBeta.path).map
      (fun f => f.similarity) = some "cosine" ∧
    (knnSearch sim store embedding).length ≤ 3 ∧
    (knnSearch sim store embedding).Pairwise (fun x y => jsonScore y ≤ jsonScore x) ∧
    ((∀ e ∈ store, hasField e.2 "plot_embedding" = true →
        hasField e.2 "title" = true ∧ hasField e.2 "plot" = true) →
      ∀ j ∈ knnSearch sim store embedding, jsonKeys j = ["_id", "title", "plot", "score"]) := by
  refine ⟨rfl, rfl, rfl, rfl, ?_, ?_, ?_⟩
  · simp only [knnSearch, List.length_map, atlasKnn]
    exact List.length_take_le _ _
  · have hsorted := List.sorted_insertionSort scoreGE
      ((store.filter (fun e => hasField e.2 (knnSearchStage embedding).knnBeta.path)).map
        (fun e => (e.1, e.2,
          sim ((getField e.2 (knnSearchStage embedding).knnBeta.path).getD Json.null)
            (knnSearchStage embedding).knnBeta.vector)))
    have htake : List.Pairwise scoreGE (atlasKnn sim store (knnSearchStage embedding)) := by
      unfold atlasKnn
      exact List.Pairwise.sublist (List.take_sublist _ _) hsorted
    unfold knnSearch
    rw [List.pairwise_map]
    refine htake.imp ?_
    intro a b hab
    simpa [jsonScore_projectResult] using hab
  · intro H j hj
    unfold knnSearch at hj
    obtain ⟨r, hr, rfl⟩ := List.mem_map.mp hj
    have hr2 := List.take_subset _ _ hr
    rw [List.mem_insertionSort] at hr2
    obtain ⟨e, he, rfl⟩ := List.mem_map.mp hr2
    have hmem := List.mem_filter.mp he
    obtain ⟨ht, hp⟩ := H e hmem.1 (by simpa using hmem.2)
    exact jsonKeys_projectResult e.1 e.2 _ ht hp

/-- A store with one processed document carrying title, plot and vector. -/
def exampleSearchStore : Store :=
  [(exampleKey1,
    [("title", Json.str "T"), ("plot", Json.str "A"),
     ("plot_embedding", Json.arr [Json.num 1])])]

/-- Witness for C6 at a concrete store and scoring function. -/
theorem knn_search_top3_descending_witness :
    (knnSearch (fun _ _ => (1 : Rat)) exampleSearchStore Json.null).length ≤ 3 ∧
    (∀ j ∈ knnSearch (fun _ _ => (1 : Rat)) exampleSearchStore Json.null,
      jsonKeys j = ["_id", "title", "plot", "score"]) := by
  have h := knn_search_top3_descending (fun _ _ => (1 : Rat)) exampleSearchStore Json.null
  exact ⟨h.2.2.2.2.1, h.2.2.2.2.2.2 (by decide)⟩

/-- The request body of the search endpoint as seen after
JSON.parse(body or the empty-object literal): a null or empty body string
is replaced by the empty-object literal, a body that is not valid JSON
makes JSON.parse throw, and otherwise the parsed JSON value is used. -/
inductive ReqBody where
  | absent
  | malformed
  | wellFormed (j : Json)
  deriving DecidableEq

/-- An HTTP response of the search handler, with its body as a JSON value
(the source serializes it with JSON.stringify). -/
structure HttpResponse where
  statusCode : Nat
  body : Json
  deriving DecidableEq

/-- The fixed caller-safe message of the search handler. -/
def searchErrorMessage : String :=
  "An error occurred while searching the movies, please try again later."

/-- The try-block of the search handler (src/functions/search/index.ts,
lines 59-86): parse the request body, read its query property, call
getEmbedding on it (any throw, and any falsy embedding value — the Empty
embedding check — are wrapped into the same error), then run the similarity
search, wrapping its failures.  embed may return none (undefined) since
createEmbedding has no check on the parsed embedding property; knn is the
knnSearch call against the live store, a parameter so that dependency
failures can be stated. -/
def searchPipeline (embed : Option Json → Except String (Option Json))
    (knn : Json → Except String (List Json)) (body : ReqBody) :
    Except String (List Json) := do
  let payload ←
    match body with
    | ReqBody.absent => Except.ok (Json.obj [])
    | ReqBody.malformed => Except.error "SyntaxError"
    | ReqBody.wellFormed j => Except.ok j
  let query ← jsMember payload "query"
  match embed query with
  | Except.error _ => Except.error "Unable to get embedding"
  | Except.ok none => Except.error "Unable to get embedding"
  | Except.ok (some e) =>
      if jsTruthy (some e) then
        match knn e with
        | Except.error _ => Except.error "Unable to get embedding or search index"
        | Except.ok items => Except.ok items
      else Except.error "Unable to get embedding"

/-- The search handler (src/functions/search/index.ts, lines 55-98): 200
with the serialized items on success, and the single generic 500 response
with the fixed caller-safe message on any caught error. -/
def searchHandler (embed : Option Json → Except String (Option Json))
    (knn : Json → Except String (List Json)) (body : ReqBody) : HttpResponse :=
  match searchPipeline embed knn body with
  | Except.ok items => ⟨200, Json.arr items⟩
  | Except.error _ => ⟨500, Json.obj [("message", Json.str searchErrorMessage)]⟩

/-- C7: whenever any step of the search request fails (malformed or
query-less body, embedding failure, falsy embedding, or similarity-search
failure), the handler returns the single generic 500 response whose body is
exactly the fixed caller-safe message object and nothing else; on success
it returns 200 with the JSON array of results; and every response is one of
those two shapes. -/
theorem search_handler_error_opacity (embed : Option Json → Except String (Option Json))
    (knn : Json → Except String (List Json)) (body : ReqBody) :
    (∀ e, searchPipeline embed knn body = Except.error e →
      searchHandler embed knn body =
        ⟨500, Json.obj [("message", Json.str searchErrorMessage)]⟩) ∧
    (∀ items, searchPipeline embed knn body = Except.ok items →
      searchHandler embed knn body = ⟨200, Json.arr items⟩) ∧
    ((searchHandler embed knn body).statusCode = 200 ∨
      searchHandler embed knn body =
        ⟨500, Json.obj [("message", Json.str searchErrorMessage)]⟩) := by
  refine ⟨?_, ?_, ?_⟩
  · intro e he
    simp [searchHandler, he]
  · intro items hi
    simp [searchHandler, hi]
  · unfold searchHandler
    cases searchPipeline embed knn body with
    | ok items => left; rfl
    | error e => right; rfl

/-- Witness for C7: a failing embedding yields exactly the generic 500
response, and a successful pipeline yields 200 with the items. -/
theorem search_handler_error_opacity_witness :
    searchHandler (fun _ => Except.error "model down") (fun _ => Except.ok [])
      (ReqBody.wellFormed (Json.obj [("query", Json.str "sports")])) =
      ⟨500, Json.obj [("message", Json.str searchErrorMessage)]⟩ ∧
    searchHandler (fun _ => Except.ok (some (Json.arr [Json.num 1])))
      (fun _ => Except.ok [Json.str "hit"])
      (ReqBody.wellFormed (Json.obj [("query", Json.str "sports")])) =
      ⟨200, Json.arr [Json.str "hit"]⟩ := by
  constructor
  · exact (search_handler_error_opacity (fun _ => Except.error "model down")
      (fun _ => Except.ok [])
      (ReqBody.wellFormed (Json.obj [("query", Json.str "sports")]))).1
      "Unable to get embedding" (by decide)
  · exact (search_handler_error_opacity (fun _ => Except.ok (some (Json.arr [Json.num 1])))
      (fun _ => Except.ok [Json.str "hit"])
      (ReqBody.wellFormed (Json.obj [("query", Json.str "sports")]))).2.1
      [Json.str "hit"] (by decide)

/-- The Bedrock InvokeModel response body as decoded and parsed by
createEmbedding: absent, not valid JSON, or a JSON payload. -/
inductive BedrockBody where
  | missing
  | malformed
  | payload (j : Json)
  deriving DecidableEq

/-- A Bedrock InvokeModel response: HTTP status and decoded body. -/
structure BedrockResponse where
  httpStatusCode : Nat
  body : BedrockBody
  deriving DecidableEq

/-- createEmbedding (src/functions/commons/helpers.ts, lines 93-125): throw
unless the status is 200 and a body is present, JSON-parse the body, and
return its embedding property as-is — the source has no emptiness (or any
other) check on the returned vector. -/
def createEmbedding (resp : BedrockResponse) : Except String (Option Json) :=
  if resp.httpStatusCode ≠ 200 then Except.error "Error in model response"
  else
    match resp.body with
    | BedrockBody.missing => Except.error "Error in model response"
    | BedrockBody.malformed => Except.error "SyntaxError"
    | BedrockBody.payload j => jsMember j "embedding"

/-- C8 is violated by the code: on a 200 Bedrock response whose embedding
is the empty vector, createEmbedding returns the empty vector as a success
(it has no emptiness check), the falsy-embedding guard of the search handler
does not fire (an empty array is truthy in JavaScript, so the check meant
to throw Empty embedding returned by the API misses it), and the
similarity search is then performed with the empty vector (knn here echoes
its argument, showing the search ran and what vector it received). -/
theorem empty_embedding_returned_as_success :
    createEmbedding ⟨200, BedrockBody.payload (Json.obj [("embedding", Json.arr [])])⟩ =
      Except.ok (some (Json.arr [])) ∧
    jsTruthy (some (Json.arr [])) = true ∧
    searchPipeline
      (fun _ => createEmbedding
        ⟨200, BedrockBody.payload (Json.obj [("embedding", Json.arr [])])⟩)
      (fun v => Except.ok [v])
      (ReqBody.wellFormed (Json.obj [("query", Json.str "sports")])) =
      Except.ok [Json.arr []] ∧
    searchHandler
      (fun _ => createEmbedding
        ⟨200, BedrockBody.payload (Json.obj [("embedding", Json.arr [])])⟩)
      (fun v => Except.ok [v])
      (ReqBody.wellFormed (Json.obj [("query", Json.str "sports")])) =
      ⟨200, Json.arr [Json.arr []]⟩ := by
  decide

/-- C9: for every store state and every positive limit, readDocuments
returns only candidate documents (plot present and plot_embedding absent),
excludes every document carrying the vector field regardless of text
presence, returns at most limit documents, and includes every candidate
whenever there are at most limit of them; the default limit, applied when
the count parameter is absent, is 50. -/
theorem select_candidates_spec (store : Store) (limit : Int) (h : 0 < limit) :
    (∀ e ∈ readDocuments store limit,
      hasField e.2 "plot" = true ∧ hasField e.2 "plot_embedding" = false) ∧
    (∀ e ∈ store, hasField e.2 "plot_embedding" = true →
      e ∉ readDocuments store limit) ∧
    (readDocuments store limit).length ≤ limit.natAbs ∧
    ((store.filter (fun e => isCandidate e.2)).length ≤ limit.natAbs →
      ∀ e ∈ store, isCandidate e.2 = true → e ∈ readDocuments store limit) ∧
    backfillLimit none = JNum.int 50 := by
  have hne : limit ≠ 0 := by omega
  have hr : readDocuments store limit =
      (store.filter (fun e => isCandidate e.2)).take limit.natAbs := by
    simp [readDocuments, mongoLimit, hne]
  refine ⟨?_, ?_, ?_, ?_, rfl⟩
  · intro e he
    rw [hr] at he
    have hc := (List.mem_filter.mp (List.take_subset _ _ he)).2
    simp only [isCandidate, Bool.and_eq_true, Bool.not_eq_true'] at hc
    exact hc
  · intro e _he hvec hmem
    rw [hr] at hmem
    have hc := (List.mem_filter.mp (List.take_subset _ _ hmem)).2
    simp [isCandidate, hvec] at hc
  · rw [hr]
    exact List.length_take_le _ _
  · intro hlen e he hc
    rw [hr, List.take_of_length_le hlen]
    exact List.mem_filter.mpr ⟨he, by simpa using hc⟩

/-- Witness for C9: with limit 5 the example store returns both its
candidates and no more than 5 documents. -/
theorem select_candidates_spec_witness :
    (readDocuments exampleStore 5).length ≤ 5 ∧
    (exampleKey1, [("plot", Json.str "A")]) ∈ readDocuments exampleStore 5 := by
  have h := select_candidates_spec exampleStore 5 (by decide)
  refine ⟨h.2.2.1, ?_⟩
  exact h.2.2.2.1 (by decide) (exampleKey1, [("plot", Json.str "A")]) (by decide) (by decide)

/-- C10: the backfill handler performs no validation of the count query
parameter: any non-empty count string is passed on as parseInt(count)
unchanged, so a non-numeric count yields NaN and a count of 0 yields limit
0, which the store treats as unlimited; non-positive and non-numeric input
is never rejected, and the default of 50 applies exactly when count is
absent or empty. -/
theorem backfill_count_unvalidated (c : String) (h : c ≠ "") :
    backfillLimit (some c) = parseIntJS c ∧
    parseIntJS "abc" = JNum.nan ∧
    parseIntJS "0" = JNum.int 0 ∧
    backfillLimit (some "0") = JNum.int 0 ∧
    parseIntJS "-3" = JNum.int (-3) ∧
    (∀ store : Store, readDocuments store 0 = store.filter (fun e => isCandidate e.2)) ∧
    backfillLimit none = JNum.int 50 ∧
    backfillLimit (some "") = JNum.int 50 := by
  refine ⟨by simp [backfillLimit, h], by decide, by decide, by decide, by decide, ?_, rfl,
    by decide⟩
  intro store
  simp [readDocuments, mongoLimit]

/-- Witness for C10: a non-numeric count string reaches the store as NaN. -/
theorem backfill_count_unvalidated_witness :
    backfillLimit (some "abc") = JNum.nan := by
  have h := backfill_count_unvalidated "abc" (by decide)
  rw [h.1]
  exact h.2.1

end SemanticSearch
